import Mathlib

/-!
Shallow embedding of the self-update engine of the wab2b-helper repository.

The embedded code is `src/updater/updateManager.ts` (class `UpdateManager`)
together with the tauri bridge module it imports (`tauriBridge.ts`, whose
functions wrap the `invoke` calls into the Rust backend).  JavaScript strings
are modelled as `List Char`; the JavaScript string operations used by the
source (`split`, `includes`, `endsWith`, `toLowerCase`, relational comparison,
`Number` coercion) are defined below character by character.  The asynchronous
methods of the class are embedded as explicit state passing: external
operations (the tauri commands, `getVersion`, `appDataDir`) are an environment
of `Except`-valued results, a thrown exception is an `Except.error`, and the
try/catch wrapper of each public method is an explicit match.
-/

/- ===================== JavaScript string primitives ===================== -/

/-- JavaScript `s.split(sep)` for a one-character separator: the list of
chunks between occurrences of `sep`; the empty string splits to `[""]`. -/
def jsSplit (sep : Char) : List Char → List (List Char)
  | [] => [[]]
  | c :: rest =>
    if c = sep then [] :: jsSplit sep rest
    else
      match jsSplit sep rest with
      | h :: t => (c :: h) :: t
      | [] => [[c]]

/-- JavaScript `a < b` on strings: lexicographic comparison by code unit. -/
def jsStrLtChars : List Char → List Char → Bool
  | [], [] => false
  | [], _ :: _ => true
  | _ :: _, [] => false
  | a :: as, b :: bs =>
    if a.toNat < b.toNat then true
    else if b.toNat < a.toNat then false
    else jsStrLtChars as bs

/-- JavaScript `toLowerCase` on one character.  The asset and platform names
the updater compares are ASCII, so only the ASCII range is mapped. -/
def lowerChar (c : Char) : Char :=
  if 65 ≤ c.toNat ∧ c.toNat ≤ 90 then Char.ofNat (c.toNat + 32) else c

/-- JavaScript `s.includes(pat)`: `pat` occurs as a contiguous substring. -/
def containsL : List Char → List Char → Bool
  | [], pat => pat.isPrefixOf ([] : List Char)
  | c :: rest, pat => pat.isPrefixOf (c :: rest) || containsL rest pat

/-- JavaScript `s.endsWith(pat)`. -/
def endsWithL (s pat : List Char) : Bool := pat.isSuffixOf s

def isDigitCh (c : Char) : Bool := 48 ≤ c.toNat && c.toNat ≤ 57

/-- Whitespace trimmed by the JavaScript `Number` coercion. -/
def isJsWs (c : Char) : Bool :=
  c.toNat = 32 || (9 ≤ c.toNat && c.toNat ≤ 13) || c.toNat = 160

def trimCh (l : List Char) : List Char :=
  ((l.dropWhile isJsWs).reverse.dropWhile isJsWs).reverse

def digitsVal (l : List Char) : Nat :=
  l.foldl (fun n c => n * 10 + (c.toNat - 48)) 0

/-- JavaScript `Number(s) || 0` as applied to one component of a version
base (a chunk containing neither "." nor "-"): surrounding whitespace is
trimmed, the empty string coerces to `0`, a decimal digit string (optionally
with a leading plus sign) to its value, and anything else yields `NaN`,
which the `|| 0` in the source collapses to `0`.  The remaining JavaScript
numeric literal forms (hexadecimal, octal, binary, exponent, `Infinity`) do
not occur in version components and are folded into the `NaN` case. -/
def jsNumOr0 (s : List Char) : Nat :=
  match trimCh s with
  | [] => 0
  | '+' :: rest => if rest ≠ [] && rest.all isDigitCh then digitsVal rest else 0
  | t => if t.all isDigitCh then digitsVal t else 0

/- ===================== Data model (types.ts) ===================== -/

/-- The `status` field of `UpdateState` in `types.ts`. -/
inductive UpdateStatus
  | idle
  | checking
  | available
  | downloading
  | ready
  | installing
  | error
deriving DecidableEq, Repr

/-- `UpdateState` from `types.ts`; optional fields are `Option`. -/
structure UpdateState where
  status : UpdateStatus
  currentVersion : String
  latestVersion : Option String := none
  releaseNotes : Option String := none
  downloadProgress : Option Nat := none
  error : Option String := none
  downloadedFilePath : Option String := none
deriving DecidableEq, Repr

/-- `Partial UpdateState` as passed to `setState`: a field that is `none`
is absent from the patch object. -/
structure UpdateStatePatch where
  status : Option UpdateStatus := none
  currentVersion : Option String := none
  latestVersion : Option String := none
  releaseNotes : Option String := none
  downloadProgress : Option Nat := none
  error : Option String := none
  downloadedFilePath : Option String := none
deriving Repr

/-- The object spread `\x7b ...state, ...patch \x7d` in `setState`: a field
present in the patch overrides, an absent one keeps the old value. -/
def applyPatch (s : UpdateState) (p : UpdateStatePatch) : UpdateState where
  status := p.status.getD s.status
  currentVersion := p.currentVersion.getD s.currentVersion
  latestVersion := match p.latestVersion with
    | some v => some v
    | none => s.latestVersion
  releaseNotes := match p.releaseNotes with
    | some v => some v
    | none => s.releaseNotes
  downloadProgress := match p.downloadProgress with
    | some v => some v
    | none => s.downloadProgress
  error := match p.error with
    | some v => some v
    | none => s.error
  downloadedFilePath := match p.downloadedFilePath with
    | some v => some v
    | none => s.downloadedFilePath

/-- `Asset` from `types.ts`. -/
structure Asset where
  name : String
  downloadUrl : String
  size : Nat
  sha256 : String
deriving DecidableEq, Repr

/-- `ReleaseInfo` from `types.ts`. -/
structure ReleaseInfo where
  version : String
  releaseNotes : String
  assets : List Asset
  publishedAt : String
deriving DecidableEq, Repr

/-- `UpdateSettings` from `types.ts`. -/
structure UpdateSettings where
  autoCheck : Bool
  githubOwner : String
  githubRepo : String
deriving DecidableEq, Repr

/-- `DEFAULT_SETTINGS` from `updateManager.ts`. -/
def DEFAULT_SETTINGS : UpdateSettings where
  autoCheck := true
  githubOwner := "Asdmir786"
  githubRepo := "helper-wab2b-dashboard-system"

/-- The state installed by the `UpdateManager` constructor. -/
def initialState : UpdateState where
  status := .idle
  currentVersion := "0.0.0"

/- ===================== compareVersions ===================== -/

/-- Base part of a version: the chunk before the first "-"
(`const [v1Base, v1PreRelease] = v1.split("-")`). -/
def baseOf (v : String) : List Char := (jsSplit '-' v.data).headD []

/-- Pre-release part of a version: the destructuring of `v.split("-")`
binds the SECOND chunk, i.e. the text between the first and the second "-",
not everything after the first "-". -/
def preOf (v : String) : Option (List Char) := (jsSplit '-' v.data).get? 1

/-- JavaScript truthiness of the bound pre-release chunk: `undefined` and
the empty string are both falsy. -/
def truthyPre : Option (List Char) → Bool
  | none => false
  | some [] => false
  | some (_ :: _) => true

/-- `v1Base.split(".").map(Number)` with the `|| 0` of the comparison loop
already folded into each component. -/
def versionTuple (v : String) : List Nat := (jsSplit '.' (baseOf v)).map jsNumOr0

/-- Tail of the `compareVersions` loop once the first tuple is exhausted:
each remaining component of the second tuple is compared against `0`. -/
def cmpZeros : List Nat → Int
  | [] => 0
  | y :: ys => if y > 0 then -1 else cmpZeros ys

/-- The `for` loop of `compareVersions`: walk both tuples left to right up
to the longer length, reading a missing component as `0`; the first
difference returns `1` or `-1`, and falling through yields `0`. -/
def cmpParts : List Nat → List Nat → Int
  | [], ys => cmpZeros ys
  | x :: xs, [] => if x > 0 then 1 else cmpParts xs []
  | x :: xs, y :: ys => if x > y then 1 else if x < y then -1 else cmpParts xs ys

/-- `compareVersions` from `updateManager.ts` (private method): returns
`1` if `v1 > v2`, `-1` if `v1 < v2`, `0` if equal. -/
def compareVersions (v1 v2 : String) : Int :=
  let v1Pre := preOf v1
  let v2Pre := preOf v2
  let base := cmpParts (versionTuple v1) (versionTuple v2)
  if base ≠ 0 then base
  else if !truthyPre v1Pre && truthyPre v2Pre then 1
  else if truthyPre v1Pre && !truthyPre v2Pre then -1
  else if !truthyPre v1Pre && !truthyPre v2Pre then 0
  else
    let p1 := v1Pre.getD []
    let p2 := v2Pre.getD []
    if jsStrLtChars p2 p1 then 1
    else if jsStrLtChars p1 p2 then -1
    else 0

/- ===================== selectPlatformAsset ===================== -/

/-- `selectPlatformAsset` from `updateManager.ts`.  The `platform` argument
is `navigator.platform`; the source lowercases it and the asset names and
keeps the first asset in list order whose lowered name matches the platform
predicate.  The literal `".AppImage"` is kept exactly as in the source. -/
def selectPlatformAsset (platform : String) (assets : List Asset) : Option Asset :=
  let p := platform.data.map lowerChar
  let isWindows := containsL p "win".data
  let isMac := containsL p "mac".data
  let isLinux := containsL p "linux".data
  assets.find? fun asset =>
    let name := asset.name.data.map lowerChar
    (isWindows && (containsL name "windows".data || containsL name "win".data ||
      endsWithL name ".msi".data || endsWithL name ".exe".data)) ||
    (isMac && (containsL name "mac".data || containsL name "darwin".data ||
      endsWithL name ".dmg".data || endsWithL name ".pkg".data)) ||
    (isLinux && (containsL name "linux".data || endsWithL name ".AppImage".data ||
      endsWithL name ".deb".data || endsWithL name ".rpm".data))

/- ===================== Manager state machine ===================== -/

/-- One invocation of an external operation (a tauri command or api call),
recorded so that theorems can speak about which calls a run performed. -/
inductive CallEv
  | getVersion
  | checkRelease (owner repo : String) (includeBeta : Bool)
  | appDataDir
  | download (url destination : String)
  | verify (filePath expectedHash : String)
  | install (updatePath : String)
deriving DecidableEq, Repr

/-- Results of the external world: each awaited operation either resolves
with a value or rejects with an error message.  `downloadR` also yields the
`download-progress` events (pairs of downloaded and total bytes) that fire
before it settles; `joinR` is the pure tauri path join; `platform` is
`navigator.platform`. -/
structure Env where
  getVersionR : Except String String
  checkReleaseR : String → String → Bool → Except String ReleaseInfo
  appDataDirR : Except String String
  joinR : String → String → String
  downloadR : String → String → List (Nat × Nat) × Except String String
  verifyR : String → String → Except String Bool
  installR : String → Except String Bool
  platform : String

/-- Observable context of a run: the manager state, the sequence of state
snapshots pushed to the registered listeners, and the calls made. -/
structure Ctx where
  state : UpdateState
  snapshots : List UpdateState := []
  calls : List CallEv := []
deriving Repr

def initCtx (s : UpdateState) : Ctx := { state := s }

/-- `setState` from `updateManager.ts`: merge the patch into the state and
push the new state to every listener (recorded as one snapshot). -/
def setState (c : Ctx) (p : UpdateStatePatch) : Ctx :=
  let s := applyPatch c.state p
  { c with state := s, snapshots := c.snapshots ++ [s] }

def logCall (c : Ctx) (e : CallEv) : Ctx := { c with calls := c.calls ++ [e] }

/-- `checkForUpdates` from `tauriBridge.ts`: an omitted `includeBeta` is
replaced by `false` before invoking the backend, and a rejection is
rewrapped with a "Failed to check for updates" prefix. -/
def bridgeCheckForUpdates (env : Env) (owner repo : String)
    (includeBeta : Option Bool) (c : Ctx) : Except String ReleaseInfo × Ctx :=
  let betaParam := includeBeta.getD false
  let c := logCall c (.checkRelease owner repo betaParam)
  match env.checkReleaseR owner repo betaParam with
  | .ok r => (.ok r, c)
  | .error e => (.error ("Failed to check for updates: " ++ e), c)

/-- Delivery of a list of `download-progress` events to a progress
callback, in order. -/
def runProgress (onProgress : Nat → Nat → Ctx → Ctx) (events : List (Nat × Nat))
    (c : Ctx) : Ctx :=
  events.foldl (fun c e => onProgress e.1 e.2 c) c

/-- `downloadAsset` from `tauriBridge.ts`: the progress events that fire
before the invoke settles are fed to the callback in order; a rejection is
rewrapped with a "Failed to download asset" prefix. -/
def bridgeDownloadAsset (env : Env) (url destination : String)
    (onProgress : Nat → Nat → Ctx → Ctx) (c : Ctx) : Except String String × Ctx :=
  let c := logCall c (.download url destination)
  let (events, result) := env.downloadR url destination
  let c := runProgress onProgress events c
  match result with
  | .ok path => (.ok path, c)
  | .error e => (.error ("Failed to download asset: " ++ e), c)

/-- `verifyFileHash` from `tauriBridge.ts`. -/
def bridgeVerifyFileHash (env : Env) (filePath expectedHash : String)
    (c : Ctx) : Except String Bool × Ctx :=
  let c := logCall c (.verify filePath expectedHash)
  match env.verifyR filePath expectedHash with
  | .ok b => (.ok b, c)
  | .error e => (.error ("Failed to verify file hash: " ++ e), c)

/-- `installUpdate` from `tauriBridge.ts`. -/
def bridgeInstallUpdate (env : Env) (updatePath : String)
    (c : Ctx) : Except String Bool × Ctx :=
  let c := logCall c (.install updatePath)
  match env.installR updatePath with
  | .ok b => (.ok b, c)
  | .error e => (.error ("Failed to install update: " ++ e), c)

/-- `Math.round((downloaded / total) * 100)` on natural numbers; a zero
total makes the JavaScript expression non-finite and is mapped to `0`
(no claim depends on the stored percentage). -/
def jsRoundPct (downloaded total : Nat) : Nat :=
  if total = 0 then 0 else (200 * downloaded + total) / (2 * total)

/-- The `onProgress` closure built by `downloadUpdate`: store the rounded
percentage via `setState`. -/
def progressStep (downloaded total : Nat) (c : Ctx) : Ctx :=
  setState c { downloadProgress := some (jsRoundPct downloaded total) }

namespace UpdateManager

/-- The `try` block of `UpdateManager.checkForUpdates`: an `Except.error`
is a thrown exception reaching the enclosing `catch`. -/
def checkBody (env : Env) (st : UpdateSettings) (c : Ctx) : Except String Bool × Ctx :=
  let c := setState c { status := some .checking }
  let c := logCall c .getVersion
  match env.getVersionR with
  | .error m => (.error m, c)
  | .ok currentVersion =>
  let c := setState c { currentVersion := some currentVersion }
  match bridgeCheckForUpdates env st.githubOwner st.githubRepo none c with
  | (.error m, c) => (.error m, c)
  | (.ok releaseInfo, c) =>
  if compareVersions releaseInfo.version currentVersion > 0 then
    let p : UpdateStatePatch :=
      { status := some .available, latestVersion := some releaseInfo.version,
        releaseNotes := some releaseInfo.releaseNotes }
    (.ok true, setState c p)
  else
    (.ok false, setState c { status := some .idle })

/-- `UpdateManager.checkForUpdates`: the `catch` converts any exception
into an `error` state carrying the message and resolves `false`. -/
def checkForUpdates (env : Env) (st : UpdateSettings) (c : Ctx) : Bool × Ctx :=
  match checkBody env st c with
  | (.ok b, c) => (b, c)
  | (.error m, c) => (false, setState c { status := some .error, error := some m })

/-- The `try` block of `UpdateManager.downloadUpdate`. -/
def downloadBody (env : Env) (st : UpdateSettings) (c : Ctx) : Except String Bool × Ctx :=
  if c.state.status ≠ .available then (.error "No update available to download", c)
  else
  let c := setState c { status := some .downloading, downloadProgress := some 0 }
  match bridgeCheckForUpdates env st.githubOwner st.githubRepo none c with
  | (.error m, c) => (.error m, c)
  | (.ok releaseInfo, c) =>
  match selectPlatformAsset env.platform releaseInfo.assets with
  | none => (.error "No compatible update found for your platform", c)
  | some asset =>
  let c := logCall c .appDataDir
  match env.appDataDirR with
  | .error m => (.error m, c)
  | .ok appData =>
  let downloadPath := env.joinR appData ("update-" ++ releaseInfo.version ++ ".bin")
  match bridgeDownloadAsset env asset.downloadUrl downloadPath progressStep c with
  | (.error m, c) => (.error m, c)
  | (.ok filePath, c) =>
  match bridgeVerifyFileHash env filePath asset.sha256 c with
  | (.error m, c) => (.error m, c)
  | (.ok isValid, c) =>
  if !isValid then
    (.error "Update verification failed. The downloaded file may be corrupted.", c)
  else
    (.ok true, setState c { status := some .ready, downloadedFilePath := some filePath })

/-- `UpdateManager.downloadUpdate` with its `catch`. -/
def downloadUpdate (env : Env) (st : UpdateSettings) (c : Ctx) : Bool × Ctx :=
  match downloadBody env st c with
  | (.ok b, c) => (b, c)
  | (.error m, c) => (false, setState c { status := some .error, error := some m })

/-- The `try` block of `UpdateManager.installUpdate`; the guard rejects
when the status is not `ready` or the stored path is absent or falsy. -/
def installBody (env : Env) (c : Ctx) : Except String Unit × Ctx :=
  match c.state.status, c.state.downloadedFilePath with
  | .ready, some fp =>
    if fp.data = [] then (.error "No update ready to install", c)
    else
      let c := setState c { status := some .installing }
      match bridgeInstallUpdate env fp c with
      | (.error m, c) => (.error m, c)
      | (.ok _, c) => (.ok (), c)
  | _, _ => (.error "No update ready to install", c)

/-- `UpdateManager.installUpdate` with its `catch`; resolves with no value. -/
def installUpdate (env : Env) (c : Ctx) : Unit × Ctx :=
  match installBody env c with
  | (.ok _, c) => ((), c)
  | (.error m, c) => ((), setState c { status := some .error, error := some m })

end UpdateManager

/-- A full run of the public `checkForUpdates` from a given state, with
empty snapshot and call logs. -/
def runCheck (env : Env) (st : UpdateSettings) (s : UpdateState) : Bool × Ctx :=
  UpdateManager.checkForUpdates env st (initCtx s)

/-- A full run of the public `downloadUpdate` from a given state. -/
def runDownload (env : Env) (st : UpdateSettings) (s : UpdateState) : Bool × Ctx :=
  UpdateManager.downloadUpdate env st (initCtx s)

/-- A full run of the public `installUpdate` from a given state. -/
def runInstall (env : Env) (s : UpdateState) : Unit × Ctx :=
  UpdateManager.installUpdate env (initCtx s)

/- ===================== Listener registry (observer api) ===================== -/

/-- The listener array of an `UpdateManager` instance together with its
state; listeners are identified by numbers, as the embedding only needs
their identity and the values they receive. -/
structure ObservedManager where
  state : UpdateState
  listeners : List Nat := []
deriving Repr

/-- Registering a listener (`onStateChange`): pushed at the end of the
array. -/
def onStateChange (m : ObservedManager) (l : Nat) : ObservedManager :=
  { m with listeners := m.listeners ++ [l] }

/-- The unsubscribe closure returned by `onStateChange`: the array is
filtered to the listeners different from the registered one. -/
def unsubscribe (m : ObservedManager) (l : Nat) : ObservedManager :=
  { m with listeners := m.listeners.filter (fun x => x ≠ l) }

/-- `setState` seen by the observers: the new state is stored and the
`forEach` loop delivers it to each listener in array order; the returned
list is the sequence of deliveries (listener, received state). -/
def setStateObs (m : ObservedManager) (p : UpdateStatePatch) :
    ObservedManager × List (Nat × UpdateState) :=
  let s := applyPatch m.state p
  ({ m with state := s }, m.listeners.map fun l => (l, s))

/- ================ Specification-side base comparison (for C6) ================ -/

/-- Padding of a tuple with trailing zeros, as in the specification words
"treating a missing trailing component as 0". -/
def padTuple (xs : List Nat) (n : Nat) : List Nat :=
  xs ++ List.replicate (n - xs.length) 0

/-- First-difference comparison of two integer tuples, left to right. -/
def firstDiffCmp : List Nat → List Nat → Int
  | x :: xs, y :: ys => if x > y then 1 else if x < y then -1 else firstDiffCmp xs ys
  | _, _ => 0

/-- The base-part ordering as the specification describes it: pad both
dot-separated integer tuples to a common length with zeros and let the
first differing component decide. -/
def specBaseCmp (xs ys : List Nat) : Int :=
  let n := max xs.length ys.length
  firstDiffCmp (padTuple xs n) (padTuple ys n)

/- ===================== Concrete test fixtures ===================== -/

/-- The `includeBeta` flags of the release-source queries in a call log. -/
def betaQueries (l : List CallEv) : List Bool :=
  l.filterMap fun e =>
    match e with
    | .checkRelease _ _ b => some b
    | _ => none

/-- True when no release-source query in the log has `includeBeta = true`. -/
def noBetaTrue (l : List CallEv) : Bool := (betaQueries l).all (fun b => !b)

def dummyRelease : ReleaseInfo :=
  { version := "1.0.0", releaseNotes := "", assets := [], publishedAt := "" }

def linuxAsset : Asset := ⟨"helper-linux.AppImage", "https://h/a", 10, "aa"⟩

def rel2 : ReleaseInfo :=
  { version := "2.0.0", releaseNotes := "notes", assets := [linuxAsset], publishedAt := "" }

/-- An environment in which every external operation rejects. -/
def envFail : Env where
  getVersionR := .error "boom"
  checkReleaseR := fun _ _ _ => .error "net"
  appDataDirR := .error "io"
  joinR := fun a b => a ++ "/" ++ b
  downloadR := fun _ _ => ([], .error "net")
  verifyR := fun _ _ => .error "io"
  installR := fun _ => .error "io"
  platform := "Linux x86_64"

/-- An environment in which every operation resolves and the published
version equals the running version. -/
def envOk : Env where
  getVersionR := .ok "1.0.0"
  checkReleaseR := fun _ _ _ => .ok dummyRelease
  appDataDirR := .ok "/data"
  joinR := fun a b => a ++ "/" ++ b
  downloadR := fun _ _ => ([(5, 10), (10, 10)], .ok "/data/f.bin")
  verifyR := fun _ _ => .ok true
  installR := fun _ => .ok true
  platform := "Linux x86_64"

/-- An environment with a newer release in which the hash verification of
the downloaded file resolves `false`. -/
def envBadHash : Env where
  getVersionR := .ok "1.0.0"
  checkReleaseR := fun _ _ _ => .ok rel2
  appDataDirR := .ok "/data"
  joinR := fun a b => a ++ "/" ++ b
  downloadR := fun _ _ => ([(5, 10), (10, 10)], .ok "/data/f.bin")
  verifyR := fun _ _ => .ok false
  installR := fun _ => .ok true
  platform := "Linux x86_64"

/-- A state in the `available` status, as left by a successful check that
found version 2.0.0. -/
def availState : UpdateState :=
  { status := .available, currentVersion := "1.0.0", latestVersion := some "2.0.0" }

/- ===================== Helper lemmas ===================== -/

theorem cmpParts_self : ∀ xs : List Nat, cmpParts xs xs = 0
  | [] => rfl
  | x :: xs => by simp [cmpParts, cmpParts_self xs]

theorem jsStrLtChars_irrefl : ∀ s : List Char, jsStrLtChars s s = false
  | [] => rfl
  | c :: s => by simp [jsStrLtChars, jsStrLtChars_irrefl s]

theorem compareVersions_self (v : String) : compareVersions v v = 0 := by
  simp only [compareVersions]
  cases h : truthyPre (preOf v) <;>
    simp [h, cmpParts_self, jsStrLtChars_irrefl]

theorem runProgress_status (evs : List (Nat × Nat)) (c : Ctx) :
    (runProgress progressStep evs c).state.status = c.state.status := by
  induction evs generalizing c with
  | nil => rfl
  | cons e evs ih =>
    show (runProgress progressStep evs (progressStep e.1 e.2 c)).state.status = _
    rw [ih]
    rfl

theorem runProgress_error (evs : List (Nat × Nat)) (c : Ctx) :
    (runProgress progressStep evs c).state.error = c.state.error := by
  induction evs generalizing c with
  | nil => rfl
  | cons e evs ih =>
    show (runProgress progressStep evs (progressStep e.1 e.2 c)).state.error = _
    rw [ih]
    rfl

theorem runProgress_dfp (evs : List (Nat × Nat)) (c : Ctx) :
    (runProgress progressStep evs c).state.downloadedFilePath =
      c.state.downloadedFilePath := by
  induction evs generalizing c with
  | nil => rfl
  | cons e evs ih =>
    show (runProgress progressStep evs (progressStep e.1 e.2 c)).state.downloadedFilePath = _
    rw [ih]
    rfl

theorem runProgress_calls (evs : List (Nat × Nat)) (c : Ctx) :
    (runProgress progressStep evs c).calls = c.calls := by
  induction evs generalizing c with
  | nil => rfl
  | cons e evs ih =>
    show (runProgress progressStep evs (progressStep e.1 e.2 c)).calls = _
    rw [ih]
    rfl

theorem runProgress_snapshots (evs : List (Nat × Nat)) (c : Ctx) :
    ∀ s ∈ (runProgress progressStep evs c).snapshots,
      s ∈ c.snapshots ∨
        (s.status = c.state.status ∧
          s.downloadedFilePath = c.state.downloadedFilePath) := by
  induction evs generalizing c with
  | nil => exact fun s hs => Or.inl hs
  | cons e evs ih =>
    intro s hs
    have hs2 := ih (progressStep e.1 e.2 c) s hs
    rcases hs2 with h | ⟨h1, h2⟩
    · simp only [progressStep, setState, List.mem_append, List.mem_singleton] at h
      rcases h with h | h
      · exact Or.inl h
      · subst h
        exact Or.inr ⟨rfl, rfl⟩
    · exact Or.inr ⟨h1, h2⟩

theorem cmpZeros_eq_firstDiff : ∀ ys : List Nat,
    cmpZeros ys = firstDiffCmp (List.replicate ys.length 0) ys
  | [] => rfl
  | y :: ys => by
    simp [cmpZeros, firstDiffCmp, List.replicate_succ, cmpZeros_eq_firstDiff ys,
      Nat.not_lt_zero]

theorem cmpParts_nil_right : ∀ xs : List Nat,
    cmpParts xs [] = firstDiffCmp xs (List.replicate xs.length 0)
  | [] => rfl
  | x :: xs => by
    simp [cmpParts, firstDiffCmp, List.replicate_succ, cmpParts_nil_right xs,
      Nat.not_lt_zero]

theorem cmpParts_eq_specBaseCmp : ∀ xs ys : List Nat, cmpParts xs ys = specBaseCmp xs ys
  | [], ys => by
    simp [cmpParts, specBaseCmp, padTuple, Nat.sub_self, List.replicate,
      cmpZeros_eq_firstDiff ys, Nat.zero_max]
  | x :: xs, [] => by
    simp [specBaseCmp, padTuple, Nat.sub_self, cmpParts_nil_right (x :: xs),
      Nat.max_zero]
  | x :: xs, y :: ys => by
    have ih := cmpParts_eq_specBaseCmp xs ys
    simp only [cmpParts, specBaseCmp, padTuple, List.length_cons,
      Nat.succ_max_succ, Nat.succ_sub_succ, List.cons_append, firstDiffCmp] at ih ⊢
    rw [ih]
    simp [List.append_eq]

theorem truthyPre_some_ne {s : List Char} (h : s ≠ []) : truthyPre (some s) = true := by
  cases s with
  | nil => exact absurd rfl h
  | cons c cs => rfl

/- ===================== Claim theorems ===================== -/

/-- C2 counterexample: the code binds only the chunk between the first and
second dash as the pre-release tag, so at equal bases it reports the two
versions equal (result 0) even though everything after the first dash of
the first version is lexicographically greater than that of the second,
which by the claim would have to yield result 1. -/
theorem claim_C2_counterexample :
    compareVersions "1.0.0-beta-2" "1.0.0-beta-1" = 0 ∧
    jsStrLtChars "beta-1".data "beta-2".data = true := by
  decide

/-- C2 (amended): at equal base tuples, a version whose bound pre-release
chunk (the text between the first and second dash) is absent or empty beats
one with a nonempty chunk, and two nonempty chunks are compared
lexicographically as plain strings; compare("1.0.0", "1.0.0-beta.1") is
greater. -/
theorem claim_C2 (v1 v2 : String)
    (hbase : cmpParts (versionTuple v1) (versionTuple v2) = 0) :
    (truthyPre (preOf v1) = false → truthyPre (preOf v2) = true →
      compareVersions v1 v2 = 1)
    ∧ (∀ s1 s2, preOf v1 = some s1 → preOf v2 = some s2 → s1 ≠ [] → s2 ≠ [] →
        compareVersions v1 v2 =
          (if jsStrLtChars s2 s1 then 1 else if jsStrLtChars s1 s2 then -1 else 0))
    ∧ compareVersions "1.0.0" "1.0.0-beta.1" = 1 := by
  refine ⟨?_, ?_, by decide⟩
  · intro h1 h2
    simp [compareVersions, hbase, h1, h2]
  · intro s1 s2 hs1 hs2 hne1 hne2
    simp [compareVersions, hbase, hs1, hs2,
      truthyPre_some_ne hne1, truthyPre_some_ne hne2]

theorem claim_C2_witness :
    cmpParts (versionTuple "1.0.0") (versionTuple "1.0.0-beta.1") = 0 ∧
    compareVersions "1.0.0" "1.0.0-beta.1" = 1 :=
  ⟨by decide, (claim_C2 "1.0.0" "1.0.0-beta.1" (by decide)).1 (by decide) (by decide)⟩

/-- C4: evaluation of `selectPlatformAsset` at the failing input.  On a
linux platform an asset named "helper.AppImage" is NOT selected, because
the source lowercases the asset name and then tests
`endsWith(".AppImage")` against a literal containing an uppercase letter,
which can never succeed; the same asset with "linux" in its name is
selected through the substring test. -/
theorem claim_C4_code_eval :
    selectPlatformAsset "Linux x86_64" [⟨"helper.AppImage", "https://h/a", 10, "aa"⟩] = none
    ∧ selectPlatformAsset "Linux x86_64" [linuxAsset] = some linuxAsset
    ∧ selectPlatformAsset "Linux x86_64" [⟨"helper.appimage", "https://h/a", 10, "aa"⟩] = none := by
  decide

/-- C6: the base parts are compared exactly as the padded first-difference
ordering of the dot-separated integer tuples (missing trailing components
read as 0), the base comparison decides the result whenever it is nonzero,
compare("1.2.0", "1.1.9") is greater, "1.2" and "1.2.0" have equal bases,
and a malformed component parses as 0. -/
theorem claim_C6 (v1 v2 : String) :
    cmpParts (versionTuple v1) (versionTuple v2) =
      specBaseCmp (versionTuple v1) (versionTuple v2)
    ∧ (cmpParts (versionTuple v1) (versionTuple v2) ≠ 0 →
        compareVersions v1 v2 = cmpParts (versionTuple v1) (versionTuple v2))
    ∧ compareVersions "1.2.0" "1.1.9" = 1
    ∧ cmpParts (versionTuple "1.2") (versionTuple "1.2.0") = 0
    ∧ versionTuple "1.x.3" = [1, 0, 3] := by
  refine ⟨cmpParts_eq_specBaseCmp _ _, ?_, by decide, by decide, by decide⟩
  intro h
  simp [compareVersions, h]

theorem claim_C6_witness :
    cmpParts (versionTuple "1.2.0") (versionTuple "1.1.9") ≠ 0 ∧
    compareVersions "1.2.0" "1.1.9" = cmpParts (versionTuple "1.2.0") (versionTuple "1.1.9") :=
  ⟨by decide, (claim_C6 "1.2.0" "1.1.9").2.1 (by decide)⟩

/-- C9: one `setState` delivers the new full state to every registered
listener exactly once, in registration order; a listener removed through
the unsubscribe closure receives no later delivery; and the delivered
value is the stored new state. -/
theorem claim_C9 (m : ObservedManager) (p : UpdateStatePatch) (l x : Nat)
    (hnd : m.listeners.Nodup) :
    (setStateObs m p).2 = m.listeners.map (fun y => (y, applyPatch m.state p))
    ∧ (x ∈ m.listeners →
        ((setStateObs m p).2.countP (fun e => e.1 == x)) = 1)
    ∧ (∀ e ∈ (setStateObs (unsubscribe m l) p).2, e.1 ≠ l)
    ∧ (setStateObs m p).1.state = applyPatch m.state p := by
  refine ⟨rfl, ?_, ?_, rfl⟩
  · intro hx
    show ((m.listeners.map fun y => (y, applyPatch m.state p)).countP
      (fun e => e.1 == x)) = 1
    rw [List.countP_map]
    have hcomp : ((fun (e : Nat × UpdateState) => e.1 == x) ∘
        fun y => (y, applyPatch m.state p)) = fun y => y == x := rfl
    rw [hcomp]
    have hcount : m.listeners.countP (fun y => y == x) = m.listeners.count x := rfl
    rw [hcount]
    exact List.count_eq_one_of_mem hnd hx
  · intro e he
    simp only [setStateObs, unsubscribe, List.mem_map, List.mem_filter] at he
    obtain ⟨y, ⟨hy, hyl⟩, hey⟩ := he
    rw [← hey]
    simpa using hyl

theorem claim_C9_witness :
    ([7, 8] : List Nat).Nodup ∧
    ((setStateObs ⟨initialState, [7, 8]⟩ { status := some .checking }).2.countP
      (fun e => e.1 == 7)) = 1 :=
  ⟨by decide,
    (claim_C9 ⟨initialState, [7, 8]⟩ { status := some .checking } 9 7 (by decide)).2.1
      (by decide)⟩

/-- C7: when the release source reports exactly the running version, the
check resolves `false`, ends in `idle`, and no pushed snapshot ever has the
`available` status. -/
theorem claim_C7 (env : Env) (st : UpdateSettings) (s0 : UpdateState)
    (cv : String) (hv : env.getVersionR = .ok cv)
    (ri : ReleaseInfo) (hr : env.checkReleaseR st.githubOwner st.githubRepo false = .ok ri)
    (hveq : ri.version = cv) :
    (runCheck env st s0).1 = false
    ∧ (runCheck env st s0).2.state.status = .idle
    ∧ (∀ s ∈ (runCheck env st s0).2.snapshots, s.status ≠ .available) := by
  have h0 : compareVersions ri.version cv = 0 := by
    rw [hveq]; exact compareVersions_self cv
  simp only [runCheck, UpdateManager.checkForUpdates, UpdateManager.checkBody,
    bridgeCheckForUpdates, Option.getD_none, initCtx, logCall, setState, hv, hr, h0]
  simp [applyPatch]

theorem claim_C7_witness :
    envOk.getVersionR = .ok "1.0.0"
    ∧ envOk.checkReleaseR DEFAULT_SETTINGS.githubOwner DEFAULT_SETTINGS.githubRepo false =
        .ok dummyRelease
    ∧ dummyRelease.version = "1.0.0"
    ∧ (runCheck envOk DEFAULT_SETTINGS initialState).2.state.status = .idle :=
  ⟨rfl, rfl, rfl,
    (claim_C7 envOk DEFAULT_SETTINGS initialState "1.0.0" rfl dummyRelease rfl rfl).2.1⟩

/-- C8: whenever the body of a public method throws (any rejected external
operation or internal guard), the method itself resolves normally, the
state transitions to `error`, and the stored message is the thrown one. -/
theorem claim_C8 (env : Env) (st : UpdateSettings) (s0 : UpdateState) (m : String) :
    ((UpdateManager.checkBody env st (initCtx s0)).1 = .error m →
      (runCheck env st s0).1 = false
      ∧ (runCheck env st s0).2.state.status = .error
      ∧ (runCheck env st s0).2.state.error = some m)
    ∧ ((UpdateManager.downloadBody env st (initCtx s0)).1 = .error m →
      (runDownload env st s0).1 = false
      ∧ (runDownload env st s0).2.state.status = .error
      ∧ (runDownload env st s0).2.state.error = some m)
    ∧ ((UpdateManager.installBody env (initCtx s0)).1 = .error m →
      (runInstall env s0).2.state.status = .error
      ∧ (runInstall env s0).2.state.error = some m) := by
  refine ⟨?_, ?_, ?_⟩
  · intro hb
    rcases hcb : UpdateManager.checkBody env st (initCtx s0) with ⟨r, c⟩
    rw [hcb] at hb
    simp only at hb
    subst hb
    simp [runCheck, UpdateManager.checkForUpdates, hcb, setState, applyPatch]
  · intro hb
    rcases hcb : UpdateManager.downloadBody env st (initCtx s0) with ⟨r, c⟩
    rw [hcb] at hb
    simp only at hb
    subst hb
    simp [runDownload, UpdateManager.downloadUpdate, hcb, setState, applyPatch]
  · intro hb
    rcases hcb : UpdateManager.installBody env (initCtx s0) with ⟨r, c⟩
    rw [hcb] at hb
    simp only at hb
    subst hb
    simp [runInstall, UpdateManager.installUpdate, hcb, setState, applyPatch]

theorem claim_C8_witness :
    (UpdateManager.checkBody envFail DEFAULT_SETTINGS (initCtx initialState)).1 = .error "boom"
    ∧ (runCheck envFail DEFAULT_SETTINGS initialState).1 = false
    ∧ (runCheck envFail DEFAULT_SETTINGS initialState).2.state.error = some "boom" := by
  have h := (claim_C8 envFail DEFAULT_SETTINGS initialState "boom").1 rfl
  exact ⟨rfl, h.1, h.2.2⟩

/-- C1 counterexample: calling `downloadUpdate` from the `idle` state does
NOT leave the state unchanged (the guard throw is caught by the catch of
the method itself, which moves the state to `error`); the call resolves
with `false` instead of rejecting. -/
theorem claim_C1_counterexample :
    (runDownload envFail DEFAULT_SETTINGS initialState).2.state ≠ initialState
    ∧ (runDownload envFail DEFAULT_SETTINGS initialState).2.state.status = .error
    ∧ (runDownload envFail DEFAULT_SETTINGS initialState).1 = false := by
  decide

/-- C1 (amended): a `downloadUpdate` call outside `available` (and an
`installUpdate` call outside `ready`) performs no external operation and
resolves normally with `false` (with nothing, respectively), but the state
does change: the internal guard exception is caught by the catch of the
method itself, which merges `status = error` and the guard message into
the state. -/
theorem claim_C1 (env : Env) (st : UpdateSettings) (s0 : UpdateState) :
    (s0.status ≠ .available →
      (runDownload env st s0).1 = false
      ∧ (runDownload env st s0).2.state =
          applyPatch s0 { status := some .error, error := some "No update available to download" }
      ∧ (runDownload env st s0).2.calls = []
      ∧ (runDownload env st s0).2.snapshots = [(runDownload env st s0).2.state])
    ∧ (s0.status ≠ .ready →
      (runInstall env s0).2.state =
          applyPatch s0 { status := some .error, error := some "No update ready to install" }
      ∧ (runInstall env s0).2.calls = []) := by
  constructor
  · intro h
    simp [runDownload, UpdateManager.downloadUpdate, UpdateManager.downloadBody,
      initCtx, setState, h]
  · intro h
    cases hst : s0.status <;> cases hfp : s0.downloadedFilePath <;>
      simp_all [runInstall, UpdateManager.installUpdate, UpdateManager.installBody,
        initCtx, setState]

theorem claim_C1_witness :
    initialState.status ≠ .available
    ∧ initialState.status ≠ .ready
    ∧ (runDownload envFail DEFAULT_SETTINGS initialState).1 = false
    ∧ (runInstall envFail initialState).2.calls = [] :=
  ⟨by decide, by decide,
    ((claim_C1 envFail DEFAULT_SETTINGS initialState).1 (by decide)).1,
    ((claim_C1 envFail DEFAULT_SETTINGS initialState).2 (by decide)).2⟩

theorem checkBody_error_field (env : Env) (st : UpdateSettings) (s0 : UpdateState) :
    (UpdateManager.checkBody env st (initCtx s0)).2.state.error = s0.error := by
  simp only [UpdateManager.checkBody, bridgeCheckForUpdates, Option.getD_none,
    initCtx, logCall, setState]
  cases hv : env.getVersionR with
  | error m => simp [applyPatch]
  | ok cv =>
    cases hr : env.checkReleaseR st.githubOwner st.githubRepo false with
    | error e => simp [applyPatch]
    | ok ri =>
      by_cases hc : compareVersions ri.version cv > 0 <;> simp [hc, applyPatch, setState]

theorem downloadBody_error_field (env : Env) (st : UpdateSettings) (s0 : UpdateState) :
    (UpdateManager.downloadBody env st (initCtx s0)).2.state.error = s0.error := by
  simp only [UpdateManager.downloadBody, bridgeCheckForUpdates, bridgeDownloadAsset,
    bridgeVerifyFileHash, Option.getD_none, initCtx, logCall, setState]
  by_cases hg : s0.status = UpdateStatus.available
  · simp only [hg, ne_eq, not_true_eq_false, if_false]
    cases hr : env.checkReleaseR st.githubOwner st.githubRepo false with
    | error e => simp [hr, applyPatch]
    | ok ri =>
      cases hsel : selectPlatformAsset env.platform ri.assets with
      | none => simp [hr, hsel, applyPatch]
      | some asset =>
        cases hd : env.appDataDirR with
        | error m => simp [hr, hsel, hd, applyPatch]
        | ok appData =>
          cases hdl : env.downloadR asset.downloadUrl
              (env.joinR appData ("update-" ++ ri.version ++ ".bin")) with
          | mk evs res =>
            cases res with
            | error e => simp [hr, hsel, hd, hdl, applyPatch, runProgress_error]
            | ok fp =>
              cases hvr : env.verifyR fp asset.sha256 with
              | error e => simp [hr, hsel, hd, hdl, hvr, applyPatch, runProgress_error]
              | ok b =>
                cases b <;>
                  simp [hr, hsel, hd, hdl, hvr, applyPatch, runProgress_error]
  · simp [hg]

theorem installBody_error_field (env : Env) (s0 : UpdateState) :
    (UpdateManager.installBody env (initCtx s0)).2.state.error = s0.error := by
  by_cases h : s0.status = UpdateStatus.ready
  · cases hfp : s0.downloadedFilePath with
    | none => simp [UpdateManager.installBody, initCtx, h, hfp, setState, applyPatch]
    | some fp =>
      simp only [UpdateManager.installBody, bridgeInstallUpdate, initCtx, logCall,
        setState, h, hfp]
      by_cases he : fp.data = []
      · simp [he, applyPatch]
      · cases hi : env.installR fp with
        | error m => simp [he, hi, applyPatch]
        | ok b => simp [he, hi, applyPatch]
  · cases hst : s0.status <;> cases hfp : s0.downloadedFilePath <;>
      simp_all [UpdateManager.installBody, initCtx, setState, applyPatch]

/-- C3 counterexample: a failed check stores an error message; a following
successful check that finds no update ends with status `idle`, yet the
`error` field still carries the stale message, because `setState` merges
partial patches and no code path ever clears the field. -/
theorem claim_C3_counterexample :
    (runCheck envOk DEFAULT_SETTINGS
        (runCheck envFail DEFAULT_SETTINGS initialState).2.state).2.state.status =
      .idle
    ∧ (runCheck envOk DEFAULT_SETTINGS
        (runCheck envFail DEFAULT_SETTINGS initialState).2.state).2.state.error =
      some "boom" := by
  decide

/-- C3 (amended): the `error` field is written only together with a
transition into the `error` status, but it is never cleared afterwards:
whenever a public operation ends with a status other than `error`, the
`error` field is exactly what it was before the call (so a stale message
from an earlier failure survives into non-error states). -/
theorem claim_C3 (env : Env) (st : UpdateSettings) (s0 : UpdateState) :
    ((runCheck env st s0).2.state.status ≠ .error →
      (runCheck env st s0).2.state.error = s0.error)
    ∧ ((runDownload env st s0).2.state.status ≠ .error →
      (runDownload env st s0).2.state.error = s0.error)
    ∧ ((runInstall env s0).2.state.status ≠ .error →
      (runInstall env s0).2.state.error = s0.error) := by
  refine ⟨?_, ?_, ?_⟩
  · intro h
    rcases hcb : UpdateManager.checkBody env st (initCtx s0) with ⟨r, c⟩
    have herr := checkBody_error_field env st s0
    rw [hcb] at herr
    cases r with
    | ok b => simpa [runCheck, UpdateManager.checkForUpdates, hcb] using herr
    | error m =>
      exfalso
      apply h
      simp [runCheck, UpdateManager.checkForUpdates, hcb, setState, applyPatch]
  · intro h
    rcases hcb : UpdateManager.downloadBody env st (initCtx s0) with ⟨r, c⟩
    have herr := downloadBody_error_field env st s0
    rw [hcb] at herr
    cases r with
    | ok b => simpa [runDownload, UpdateManager.downloadUpdate, hcb] using herr
    | error m =>
      exfalso
      apply h
      simp [runDownload, UpdateManager.downloadUpdate, hcb, setState, applyPatch]
  · intro h
    rcases hcb : UpdateManager.installBody env (initCtx s0) with ⟨r, c⟩
    have herr := installBody_error_field env s0
    rw [hcb] at herr
    cases r with
    | ok b => simpa [runInstall, UpdateManager.installUpdate, hcb] using herr
    | error m =>
      exfalso
      apply h
      simp [runInstall, UpdateManager.installUpdate, hcb, setState, applyPatch]

theorem claim_C3_witness :
    (runCheck envOk DEFAULT_SETTINGS initialState).2.state.status ≠ .error
    ∧ (runCheck envOk DEFAULT_SETTINGS initialState).2.state.error = initialState.error :=
  ⟨by decide, (claim_C3 envOk DEFAULT_SETTINGS initialState).1 (by decide)⟩

theorem checkBody_noBeta (env : Env) (st : UpdateSettings) (s0 : UpdateState) :
    noBetaTrue ((UpdateManager.checkBody env st (initCtx s0)).2.calls) = true := by
  simp only [UpdateManager.checkBody, bridgeCheckForUpdates, Option.getD_none,
    initCtx, logCall, setState]
  cases hv : env.getVersionR with
  | error m => simp [noBetaTrue, betaQueries]
  | ok cv =>
    cases hr : env.checkReleaseR st.githubOwner st.githubRepo false with
    | error e => simp [hr, noBetaTrue, betaQueries]
    | ok ri =>
      by_cases hc : compareVersions ri.version cv > 0 <;>
        simp [hr, hc, setState, noBetaTrue, betaQueries]

theorem downloadBody_noBeta (env : Env) (st : UpdateSettings) (s0 : UpdateState) :
    noBetaTrue ((UpdateManager.downloadBody env st (initCtx s0)).2.calls) = true := by
  simp only [UpdateManager.downloadBody, bridgeCheckForUpdates, bridgeDownloadAsset,
    bridgeVerifyFileHash, Option.getD_none, initCtx, logCall, setState]
  by_cases hg : s0.status = UpdateStatus.available
  · simp only [hg, ne_eq, not_true_eq_false, if_false]
    cases hr : env.checkReleaseR st.githubOwner st.githubRepo false with
    | error e => simp [hr, noBetaTrue, betaQueries]
    | ok ri =>
      cases hsel : selectPlatformAsset env.platform ri.assets with
      | none => simp [hr, hsel, noBetaTrue, betaQueries]
      | some asset =>
        cases hd : env.appDataDirR with
        | error m => simp [hr, hsel, hd, noBetaTrue, betaQueries]
        | ok appData =>
          cases hdl : env.downloadR asset.downloadUrl
              (env.joinR appData ("update-" ++ ri.version ++ ".bin")) with
          | mk evs res =>
            cases res with
            | error e =>
              simp [hr, hsel, hd, hdl, runProgress_calls, noBetaTrue, betaQueries]
            | ok fp =>
              cases hvr : env.verifyR fp asset.sha256 with
              | error e =>
                simp [hr, hsel, hd, hdl, hvr, runProgress_calls, noBetaTrue, betaQueries]
              | ok b =>
                cases b <;>
                  simp [hr, hsel, hd, hdl, hvr, runProgress_calls, noBetaTrue, betaQueries]
  · simp [hg, noBetaTrue, betaQueries]

/-- C10: the bridge substitutes `false` for an omitted `includeBeta` flag
when querying the release source, and no run of `checkForUpdates` or
`downloadUpdate` of the manager (which always omits the flag) ever queries
the release source with `includeBeta = true`. -/
theorem claim_C10 (env : Env) (st : UpdateSettings) (s0 : UpdateState)
    (owner repo : String) (c : Ctx) :
    (bridgeCheckForUpdates env owner repo none c).2.calls =
      c.calls ++ [.checkRelease owner repo false]
    ∧ noBetaTrue ((runCheck env st s0).2.calls) = true
    ∧ noBetaTrue ((runDownload env st s0).2.calls) = true := by
  refine ⟨?_, ?_, ?_⟩
  · simp only [bridgeCheckForUpdates, Option.getD_none, logCall]
    cases h : env.checkReleaseR owner repo false <;> simp
  · rcases hcb : UpdateManager.checkBody env st (initCtx s0) with ⟨r, c'⟩
    have hnb := checkBody_noBeta env st s0
    rw [hcb] at hnb
    cases r <;> simp [runCheck, UpdateManager.checkForUpdates, hcb, setState, hnb]
  · rcases hcb : UpdateManager.downloadBody env st (initCtx s0) with ⟨r, c'⟩
    have hnb := downloadBody_noBeta env st s0
    rw [hcb] at hnb
    cases r <;> simp [runDownload, UpdateManager.downloadUpdate, hcb, setState, hnb]

theorem installUpdate_not_ready (env : Env) (s : UpdateState)
    (h : s.status ≠ UpdateStatus.ready) :
    (runInstall env s).2.state =
      applyPatch s { status := some .error, error := some "No update ready to install" }
    ∧ (runInstall env s).2.calls = [] := by
  cases hst : s.status <;> cases hfp : s.downloadedFilePath <;>
    simp_all [runInstall, UpdateManager.installUpdate, UpdateManager.installBody,
      initCtx, setState]

/-- C5: a download run from `available` in which the hash verification of
the downloaded file resolves `false` ends in `error` with the corruption
message, resolves `false`, never pushes a `ready` snapshot, never touches
`downloadedFilePath`, and a subsequent `installUpdate` performs no external
call (in particular it never invokes the install operation) and ends in
`error` again. -/
theorem claim_C5 (env : Env) (st : UpdateSettings) (s0 : UpdateState)
    (ri : ReleaseInfo) (a : Asset) (dir fp : String) (evs : List (Nat × Nat))
    (hs : s0.status = .available)
    (hr : env.checkReleaseR st.githubOwner st.githubRepo false = .ok ri)
    (hsel : selectPlatformAsset env.platform ri.assets = some a)
    (hdir : env.appDataDirR = .ok dir)
    (hdl : env.downloadR a.downloadUrl
      (env.joinR dir ("update-" ++ ri.version ++ ".bin")) = (evs, .ok fp))
    (hv : env.verifyR fp a.sha256 = .ok false) :
    (runDownload env st s0).1 = false
    ∧ (runDownload env st s0).2.state.status = .error
    ∧ (runDownload env st s0).2.state.error =
        some "Update verification failed. The downloaded file may be corrupted."
    ∧ (runDownload env st s0).2.state.downloadedFilePath = s0.downloadedFilePath
    ∧ (∀ s ∈ (runDownload env st s0).2.snapshots,
        s.status ≠ .ready ∧ s.downloadedFilePath = s0.downloadedFilePath)
    ∧ (runInstall env (runDownload env st s0).2.state).2.calls = []
    ∧ (runInstall env (runDownload env st s0).2.state).2.state.status = .error := by
  have h2 : (runDownload env st s0).2.state.status = UpdateStatus.error := by
    simp only [runDownload, UpdateManager.downloadUpdate, UpdateManager.downloadBody,
      bridgeCheckForUpdates, bridgeDownloadAsset, bridgeVerifyFileHash,
      Option.getD_none, initCtx, logCall, setState, hs, hr, hsel, hdir, hdl, hv]
    simp [applyPatch]
  have h4 : (runDownload env st s0).2.state.downloadedFilePath =
      s0.downloadedFilePath := by
    simp only [runDownload, UpdateManager.downloadUpdate, UpdateManager.downloadBody,
      bridgeCheckForUpdates, bridgeDownloadAsset, bridgeVerifyFileHash,
      Option.getD_none, initCtx, logCall, setState, hs, hr, hsel, hdir, hdl, hv]
    simp [applyPatch, runProgress_dfp]
  have hni := installUpdate_not_ready env (runDownload env st s0).2.state
    (by simp [h2])
  refine ⟨?_, h2, ?_, h4, ?_, hni.2, ?_⟩
  · simp only [runDownload, UpdateManager.downloadUpdate, UpdateManager.downloadBody,
      bridgeCheckForUpdates, bridgeDownloadAsset, bridgeVerifyFileHash,
      Option.getD_none, initCtx, logCall, setState, hs, hr, hsel, hdir, hdl, hv]
    simp
  · simp only [runDownload, UpdateManager.downloadUpdate, UpdateManager.downloadBody,
      bridgeCheckForUpdates, bridgeDownloadAsset, bridgeVerifyFileHash,
      Option.getD_none, initCtx, logCall, setState, hs, hr, hsel, hdir, hdl, hv]
    simp [applyPatch]
  · intro s hsm
    simp only [runDownload, UpdateManager.downloadUpdate, UpdateManager.downloadBody,
      bridgeCheckForUpdates, bridgeDownloadAsset, bridgeVerifyFileHash,
      Option.getD_none, initCtx, logCall, setState, hs, hr, hsel, hdir, hdl, hv] at hsm
    simp at hsm
    rcases hsm with hsm | hsm
    · have hmem := runProgress_snapshots evs _ s hsm
      rcases hmem with hin | ⟨hst, hdfp⟩
      · simp at hin
        subst hin
        exact ⟨by simp [applyPatch], by simp [applyPatch]⟩
      · exact ⟨by rw [hst]; simp [applyPatch], by rw [hdfp]; simp [applyPatch]⟩
    · subst hsm
      exact ⟨by simp [applyPatch], by simp [applyPatch, runProgress_dfp]⟩
  · rw [hni.1]
    simp [applyPatch]

theorem claim_C5_witness :
    availState.status = .available
    ∧ envBadHash.verifyR "/data/f.bin" linuxAsset.sha256 = .ok false
    ∧ (runDownload envBadHash DEFAULT_SETTINGS availState).2.state.status = .error
    ∧ (runInstall envBadHash
        (runDownload envBadHash DEFAULT_SETTINGS availState).2.state).2.calls = [] := by
  have h := claim_C5 envBadHash DEFAULT_SETTINGS availState rel2 linuxAsset
    "/data" "/data/f.bin" [(5, 10), (10, 10)] rfl rfl (by decide) rfl rfl rfl
  exact ⟨rfl, rfl, h.2.1, h.2.2.2.2.2.1⟩
